import Mathlib

/-!
Shallow embedding of `providers/redhat/package_feed.go` from nvdtools.

The file under verification defines:
  * `PackageFeed` — a map from base package names to the list of CVEs
    recorded against that package;
  * `addPackage` — linear-scan insertion of a name into a candidate list,
    skipping exact duplicates;
  * `Feed.PackageFeed` — building a `PackageFeed` from a `Feed`
    (an ordered collection of CVE records);
  * `Feed.ListFixedCVEs` — parsing a distro CPE and a package string,
    building the index and a checker, and listing the names of the CVEs in
    the package's bucket that the checker marks as not applicable.

External collaborators (`rpm.Parse`, `wfn.Parse`, `Feed.Checker`) are not
part of this slice; they are modelled as explicit function parameters, so
every theorem quantifies over their behaviour unless stated otherwise.
-/

set_option autoImplicit false

/-- One entry of `CVE.AffectedRelease` (schema): only the `Package` field
(a full package specifier string, possibly empty) is consumed here. -/
structure AffectedRelease where
  Package : String
deriving DecidableEq

/-- One entry of `CVE.PackageState` (schema): only the `PackageName` field
(a bare base package name, possibly empty) is consumed here. -/
structure PackageState where
  PackageName : String
deriving DecidableEq

/-- A CVE record (schema): its name plus the two sources of package
association consumed by the index build. -/
structure CVE where
  Name : String
  AffectedRelease : List AffectedRelease
  PackageState : List PackageState
deriving DecidableEq

/-- Modelled from the spec: result of the external package-specifier parser
(`rpm.Parse`), a `PackageIdentifier{name, version, release}`; the `rpm`
package is outside this slice. Only `Name` is inspected by this core. -/
structure RPMPackage where
  Name : String
  Version : String
  Release : String
deriving DecidableEq

/-- Modelled from the spec: result of the external platform-identifier
parser (`wfn.Parse`); opaque to this core, which only passes it along. -/
structure WFNAttributes where
  raw : String
deriving DecidableEq

/-- `Feed`: an ordered collection of CVE records. -/
abbrev Feed := List CVE

/-- The external package-specifier parser, `rpm.Parse`; `none` models a
parse error (the error value itself is only logged or wrapped). -/
abbrev RPMParser := String → Option RPMPackage

/-- The external platform parser, `wfn.Parse`; `none` models a parse error. -/
abbrev WFNParser := String → Option WFNAttributes

/-- Modelled from the spec: the applicability oracle's `Check` method,
`Check(pkg, distro, advisoryName) -> bool`; `Feed.Checker` is outside this
slice. `true` means the advisory is not applicable. -/
abbrev Checker := RPMPackage → WFNAttributes → String → Bool

/-- `PackageFeed`: association between package names and the list of CVEs
recorded against that package. The Go original is a hash map written only
by `append`; we model it as an association list whose keys appear in first
insertion order (the extra order carries no information used by claims). -/
abbrev PackageFeed := List (String × List CVE)

/-- Go `addPackage`: adds `pkg` to the list only if not already there
(scan for an exact match; on a match return the list unchanged, otherwise
append at the end). -/
def addPackage : List String → String → List String
  | [], pkg => [pkg]
  | p :: ps, pkg => if p == pkg then p :: ps else p :: addPackage ps pkg

/-- Loop body of phase 1 of the build (`AffectedRelease`): skip an empty
`Package` string; parse the rest, skipping (with a logged diagnostic) the
entries the parser rejects; on success add the parsed base name. -/
def arStep (parse : RPMParser) (pkgs : List String) (ar : AffectedRelease) :
    List String :=
  if ar.Package == "" then pkgs
  else
    match parse ar.Package with
    | none => pkgs
    | some rpmPkg => addPackage pkgs rpmPkg.Name

/-- Loop body of phase 2 of the build (`PackageState`): skip an empty
`PackageName`; add the rest directly (no parsing). -/
def psStep (pkgs : List String) (ps : PackageState) : List String :=
  if ps.PackageName == "" then pkgs
  else addPackage pkgs ps.PackageName

/-- The candidate package names collected for one CVE record (the `pkgs`
local of the Go build loop): `AffectedRelease` entries first, then
`PackageState` entries, deduplicated by `addPackage`. -/
def cvePkgs (parse : RPMParser) (cve : CVE) : List String :=
  cve.PackageState.foldl psStep (cve.AffectedRelease.foldl (arStep parse) [])

/-- Map lookup, `pkgFeed[pkg]` on the read side: the bucket of a key, or
the empty list when the key is absent (Go's zero value for a slice). -/
def PackageFeed.find : PackageFeed → String → List CVE
  | [], _ => []
  | (k, b) :: rest, key => if k == key then b else PackageFeed.find rest key

/-- Key membership in the map (whether `pkg` is a key of `pkgFeed`). -/
def PackageFeed.hasKey : PackageFeed → String → Bool
  | [], _ => false
  | (k, _) :: rest, key => k == key || PackageFeed.hasKey rest key

/-- The map write `pkgFeed[pkg] = append(pkgFeed[pkg], cve)`: append `cve`
to the bucket of `key`, creating the key when absent. -/
def PackageFeed.appendCVE : PackageFeed → String → CVE → PackageFeed
  | [], key, cve => [(key, [cve])]
  | (k, b) :: rest, key, cve =>
    if k == key then (k, b ++ [cve]) :: rest
    else (k, b) :: PackageFeed.appendCVE rest key cve

/-- Go `func (feed Feed) PackageFeed() PackageFeed`: for each CVE in feed
order, collect its candidate names and append the CVE to each name's
bucket. -/
def Feed.toPackageFeed (parse : RPMParser) (feed : Feed) : PackageFeed :=
  feed.foldl
    (fun pkgFeed cve =>
      (cvePkgs parse cve).foldl
        (fun pkgFeed pkg => pkgFeed.appendCVE pkg cve) pkgFeed)
    []

/-- The errors `ListFixedCVEs` can return: a distro CPE parse failure, a
package-name parse failure (each carrying the offending input, as the Go
error message does), or a wrapped `Feed.Checker` construction failure. -/
inductive ListError where
  | distroParseError (distro : String)
  | pkgParseError (pkg : String)
  | checkerError
deriving DecidableEq

/-- Go `func (feed Feed) ListFixedCVEs(distro, pkg string) ([]string, error)`:
parse the distro CPE (fail fast), parse the package (fail fast), build the
package feed, build the checker (`checkerOf feed` models `feed.Checker()`;
fail fast), then collect, in bucket order, the names of the CVEs in the
bucket of the parsed package's name that the checker accepts. -/
def Feed.ListFixedCVEs (wfnParse : WFNParser) (rpmParse : RPMParser)
    (checkerOf : Feed → Option Checker) (feed : Feed) (distro pkg : String) :
    Except ListError (List String) :=
  match wfnParse distro with
  | none => Except.error (ListError.distroParseError distro)
  | some d =>
    match rpmParse pkg with
    | none => Except.error (ListError.pkgParseError pkg)
    | some p =>
      let pkgFeed := Feed.toPackageFeed rpmParse feed
      match checkerOf feed with
      | none => Except.error ListError.checkerError
      | some check =>
        Except.ok
          (((pkgFeed.find p.Name).filter
              (fun cve => check p d cve.Name)).map (fun cve => cve.Name))

/-! ### Helper lemmas about `addPackage` and the candidate list -/

theorem addPackage_eq (pkgs : List String) (pkg : String) :
    addPackage pkgs pkg = if pkg ∈ pkgs then pkgs else pkgs ++ [pkg] := by
  induction pkgs with
  | nil => simp [addPackage]
  | cons p ps ih =>
    by_cases h : p = pkg
    · simp [addPackage, h]
    · simp only [addPackage, beq_iff_eq, h, if_false, ih, List.mem_cons]
      by_cases h2 : pkg ∈ ps <;> simp [h2, Ne.symm h]

theorem mem_addPackage {x : String} (pkgs : List String) (pkg : String) :
    x ∈ addPackage pkgs pkg ↔ x ∈ pkgs ∨ x = pkg := by
  rw [addPackage_eq]
  by_cases h : pkg ∈ pkgs
  · simp only [h, if_true]
    constructor
    · exact Or.inl
    · rintro (hx | rfl) <;> assumption
  · simp [h]

theorem nodup_addPackage {pkgs : List String} (h : pkgs.Nodup) (pkg : String) :
    (addPackage pkgs pkg).Nodup := by
  rw [addPackage_eq]
  by_cases hm : pkg ∈ pkgs
  · simpa [hm]
  · simp [hm, List.nodup_append, h, List.disjoint_singleton]

theorem nodup_foldl_arStep (parse : RPMParser) (l : List AffectedRelease) :
    ∀ pkgs : List String, pkgs.Nodup → (l.foldl (arStep parse) pkgs).Nodup := by
  induction l with
  | nil => intro pkgs h; simpa using h
  | cons ar ars ih =>
    intro pkgs h
    rw [List.foldl_cons]
    apply ih
    unfold arStep
    by_cases he : ar.Package == ""
    · simpa [he] using h
    · simp only [he, if_false]
      cases parse ar.Package with
      | none => exact h
      | some q => exact nodup_addPackage h q.Name

theorem nodup_foldl_psStep (l : List PackageState) :
    ∀ pkgs : List String, pkgs.Nodup → (l.foldl psStep pkgs).Nodup := by
  induction l with
  | nil => intro pkgs h; simpa using h
  | cons ps pss ih =>
    intro pkgs h
    rw [List.foldl_cons]
    apply ih
    unfold psStep
    by_cases he : ps.PackageName == ""
    · simpa [he] using h
    · simpa [he] using nodup_addPackage h ps.PackageName

theorem cvePkgs_nodup (parse : RPMParser) (cve : CVE) :
    (cvePkgs parse cve).Nodup := by
  unfold cvePkgs
  exact nodup_foldl_psStep _ _ (nodup_foldl_arStep parse _ _ List.nodup_nil)

theorem mem_foldl_arStep {x : String} (parse : RPMParser)
    (l : List AffectedRelease) :
    ∀ pkgs : List String, x ∈ l.foldl (arStep parse) pkgs →
    x ∈ pkgs ∨ ∃ ar ∈ l, ar.Package ≠ "" ∧
      ∃ q, parse ar.Package = some q ∧ q.Name = x := by
  induction l with
  | nil => intro pkgs h; exact Or.inl (by simpa using h)
  | cons ar ars ih =>
    intro pkgs h
    rw [List.foldl_cons] at h
    rcases ih _ h with hx | ⟨ar', hmem, hne, q, hq, hname⟩
    · unfold arStep at hx
      by_cases he : ar.Package == ""
      · simp only [he, if_true] at hx
        exact Or.inl hx
      · simp only [he, if_false] at hx
        rcases hp : parse ar.Package with _ | q
        · rw [hp] at hx; exact Or.inl hx
        · rw [hp] at hx
          rcases (mem_addPackage _ _).mp hx with hx' | rfl
          · exact Or.inl hx'
          · exact Or.inr ⟨ar, List.mem_cons_self .., by simpa using he, q, hp, rfl⟩
    · exact Or.inr ⟨ar', List.mem_cons_of_mem _ hmem, hne, q, hq, hname⟩

theorem mem_foldl_psStep {x : String} (l : List PackageState) :
    ∀ pkgs : List String, x ∈ l.foldl psStep pkgs →
    x ∈ pkgs ∨ ∃ ps ∈ l, ps.PackageName ≠ "" ∧ ps.PackageName = x := by
  induction l with
  | nil => intro pkgs h; exact Or.inl (by simpa using h)
  | cons ps pss ih =>
    intro pkgs h
    rw [List.foldl_cons] at h
    rcases ih _ h with hx | ⟨ps', hmem, hne, hname⟩
    · unfold psStep at hx
      by_cases he : ps.PackageName == ""
      · simp only [he, if_true] at hx
        exact Or.inl hx
      · simp only [he, if_false] at hx
        rcases (mem_addPackage _ _).mp hx with hx' | rfl
        · exact Or.inl hx'
        · exact Or.inr ⟨ps, List.mem_cons_self .., by simpa using he, rfl⟩
    · exact Or.inr ⟨ps', List.mem_cons_of_mem _ hmem, hne, hname⟩

/-- Every candidate name of a CVE comes either from a successfully parsed
non-empty `AffectedRelease.Package` specifier or from a non-empty
`PackageState.PackageName`. -/
theorem mem_cvePkgs_origin {x : String} (parse : RPMParser) (cve : CVE)
    (h : x ∈ cvePkgs parse cve) :
    (∃ ar ∈ cve.AffectedRelease, ar.Package ≠ "" ∧
      ∃ q, parse ar.Package = some q ∧ q.Name = x) ∨
    (∃ ps ∈ cve.PackageState, ps.PackageName ≠ "" ∧ ps.PackageName = x) := by
  unfold cvePkgs at h
  rcases mem_foldl_psStep _ _ h with hx | hps
  · rcases mem_foldl_arStep parse _ _ hx with hx' | har
    · simp at hx'
    · exact Or.inl har
  · exact Or.inr hps

/-! ### Helper lemmas about the association-list map -/

theorem find_appendCVE (m : PackageFeed) (key k : String) (cve : CVE) :
    (m.appendCVE key cve).find k
      = if k = key then m.find k ++ [cve] else m.find k := by
  induction m with
  | nil =>
    by_cases h : k = key
    · simp [PackageFeed.appendCVE, PackageFeed.find, h]
    · simp [PackageFeed.appendCVE, PackageFeed.find, h, Ne.symm h]
  | cons e rest ih =>
    obtain ⟨k', b⟩ := e
    by_cases h1 : k' = key
    · by_cases h2 : k' = k
      · simp [PackageFeed.appendCVE, PackageFeed.find, h1, h2, h1 ▸ h2.symm]
      · have h3 : ¬ k = key := fun hk => h2 (h1.trans hk.symm)
        simp [PackageFeed.appendCVE, PackageFeed.find, h1, h2, h3, h1 ▸ h2]
    · by_cases h2 : k' = k
      · have h3 : ¬ k = key := fun hk => h1 (h2.trans hk)
        simp [PackageFeed.appendCVE, PackageFeed.find, h1, h2, h3]
      · simp [PackageFeed.appendCVE, PackageFeed.find, h1, h2, ih]

theorem hasKey_appendCVE (m : PackageFeed) (key k : String) (cve : CVE) :
    (m.appendCVE key cve).hasKey k = (m.hasKey k || key == k) := by
  induction m with
  | nil => simp [PackageFeed.appendCVE, PackageFeed.hasKey]
  | cons e rest ih =>
    obtain ⟨k', b⟩ := e
    by_cases h1 : k' = key
    · by_cases h2 : k' = k <;>
        simp [PackageFeed.appendCVE, PackageFeed.hasKey, h1, h2, h1 ▸ h2]
    · simp [PackageFeed.appendCVE, PackageFeed.hasKey, h1, ih, Bool.or_assoc]

theorem find_eq_nil_of_hasKey_false (m : PackageFeed) (k : String)
    (h : m.hasKey k = false) : m.find k = [] := by
  induction m with
  | nil => rfl
  | cons e rest ih =>
    obtain ⟨k', b⟩ := e
    simp only [PackageFeed.hasKey, Bool.or_eq_false_iff] at h
    simp [PackageFeed.find, h.1, ih h.2]

theorem find_foldl_appendCVE (cve : CVE) (pkgs : List String)
    (hnd : pkgs.Nodup) :
    ∀ (m : PackageFeed) (k : String),
    (pkgs.foldl (fun acc pkg => acc.appendCVE pkg cve) m).find k
      = m.find k ++ (if k ∈ pkgs then [cve] else []) := by
  induction pkgs with
  | nil => intro m k; simp
  | cons p ps ih =>
    intro m k
    have hnd' : ps.Nodup := hnd.of_cons
    have hp : p ∉ ps := by
      intro hmem
      exact (List.nodup_cons.mp hnd).1 hmem
    rw [List.foldl_cons, ih hnd', find_appendCVE]
    by_cases hk : k = p
    · subst hk
      simp [hp]
    · simp [hk, Ne.symm]

theorem hasKey_foldl_appendCVE (cve : CVE) (pkgs : List String) :
    ∀ (m : PackageFeed) (k : String),
    (pkgs.foldl (fun acc pkg => acc.appendCVE pkg cve) m).hasKey k
      = (m.hasKey k || pkgs.contains k) := by
  induction pkgs with
  | nil => intro m k; simp
  | cons p ps ih =>
    intro m k
    rw [List.foldl_cons, ih, hasKey_appendCVE, List.contains_cons,
      Bool.or_assoc]
    have hswap : (p == k) = (k == p) := by
      by_cases h : p = k
      · simp [h]
      · simp [h, Ne.symm h]
    simp [hswap]

theorem find_foldl_build (parse : RPMParser) (feed : Feed) :
    ∀ (m : PackageFeed) (k : String),
    (feed.foldl (fun pkgFeed cve =>
        (cvePkgs parse cve).foldl
          (fun pkgFeed pkg => pkgFeed.appendCVE pkg cve) pkgFeed) m).find k
      = m.find k ++ feed.filter (fun cve => (cvePkgs parse cve).contains k) := by
  induction feed with
  | nil => intro m k; simp
  | cons cve rest ih =>
    intro m k
    rw [List.foldl_cons, ih,
      find_foldl_appendCVE cve _ (cvePkgs_nodup parse cve)]
    by_cases hk : k ∈ cvePkgs parse cve
    · have hc : (cvePkgs parse cve).contains k = true := List.elem_iff.mpr hk
      simp [List.filter_cons, hk, hc, List.append_assoc]
    · have hc : (cvePkgs parse cve).contains k = false := by
        cases he : (cvePkgs parse cve).contains k
        · rfl
        · exact absurd (List.elem_iff.mp he) hk
      simp [List.filter_cons, hk, hc]

/-- Bucket characterization: the bucket of `k` in the built package feed is
exactly the CVEs of the feed, in feed order, whose candidate package names
contain `k`. -/
theorem find_toPackageFeed (parse : RPMParser) (feed : Feed) (k : String) :
    (Feed.toPackageFeed parse feed).find k
      = feed.filter (fun cve => (cvePkgs parse cve).contains k) := by
  unfold Feed.toPackageFeed
  rw [find_foldl_build]
  rfl

theorem hasKey_foldl_build (parse : RPMParser) (feed : Feed) :
    ∀ (m : PackageFeed) (k : String),
    (feed.foldl (fun pkgFeed cve =>
        (cvePkgs parse cve).foldl
          (fun pkgFeed pkg => pkgFeed.appendCVE pkg cve) pkgFeed) m).hasKey k
      = (m.hasKey k || feed.any (fun cve => (cvePkgs parse cve).contains k)) := by
  induction feed with
  | nil => intro m k; simp
  | cons cve rest ih =>
    intro m k
    rw [List.foldl_cons, ih, hasKey_foldl_appendCVE, List.any_cons,
      Bool.or_assoc]

/-- Key characterization: `k` is a key of the built package feed iff some
CVE of the feed has `k` among its candidate package names. -/
theorem hasKey_toPackageFeed (parse : RPMParser) (feed : Feed) (k : String) :
    (Feed.toPackageFeed parse feed).hasKey k
      = feed.any (fun cve => (cvePkgs parse cve).contains k) := by
  unfold Feed.toPackageFeed
  rw [hasKey_foldl_build]
  rfl

/-! ### Concrete fixtures used by witness theorems -/

/-- A concrete instance of the external `rpm.Parse` used only by witnesses:
parses three well-formed package strings, rejects everything else. -/
def rpFix : RPMParser := fun s =>
  if s = "bash-4.4-20.el8" then some ⟨"bash", "4.4", "20.el8"⟩
  else if s = "bash-4.4-23.el8" then some ⟨"bash", "4.4", "23.el8"⟩
  else if s = "zsh-5.0-1.el8" then some ⟨"zsh", "5.0", "1.el8"⟩
  else none

/-- A concrete instance of the external `wfn.Parse` used only by witnesses:
accepts one well-formed CPE, rejects everything else. -/
def wpFix : WFNParser := fun s =>
  if s = "cpe:/o:redhat:enterprise_linux:8" then some ⟨s⟩ else none

/-- A concrete checker constructor that always succeeds and marks every
advisory as not applicable. -/
def checkerOfTrue : Feed → Option Checker := fun _ => some (fun _ _ _ => true)

/-- The CVE of the spec's scenario: one release-fix entry, no state
entries. -/
def cveFix : CVE := ⟨"CVE-2020-0001", [⟨"bash-4.4-20.el8"⟩], []⟩

/-- A CVE whose release-fix entry and package-state entry both yield the
base name `bash`. -/
def cveBoth : CVE := ⟨"CVE-2020-0002", [⟨"bash-4.4-20.el8"⟩], [⟨"bash"⟩]⟩

/-- A CVE contributing zero candidate names: one empty release-fix
specifier and one empty package-state name. -/
def cveEmpty : CVE := ⟨"CVE-2020-0003", [⟨""⟩], [⟨""⟩]⟩

/-! ### The claims -/

/-- C1: for every advisory collection, distribution string and package
string for which both parses and checker construction succeed,
`ListFixedCVEs` returns, with no error, exactly the names of the CVEs in
the bucket of the parsed package's base name for which the checker returns
`true`, in bucket order; CVEs the checker rejects are omitted. -/
theorem claim1_list_filters_bucket
    (wfnParse : WFNParser) (rpmParse : RPMParser)
    (checkerOf : Feed → Option Checker) (feed : Feed) (distro pkg : String)
    (d : WFNAttributes) (p : RPMPackage) (check : Checker)
    (hd : wfnParse distro = some d) (hp : rpmParse pkg = some p)
    (hc : checkerOf feed = some check) :
    Feed.ListFixedCVEs wfnParse rpmParse checkerOf feed distro pkg
      = Except.ok
          ((((Feed.toPackageFeed rpmParse feed).find p.Name).filter
              (fun cve => check p d cve.Name)).map (fun cve => cve.Name)) := by
  unfold Feed.ListFixedCVEs
  rw [hd, hp, hc]

/-- Witness for C1: the spec's scenario — one advisory fixed in
`bash-4.4-20.el8`, query `bash-4.4-23.el8` on the RHEL 8 CPE, checker
accepting everything — yields exactly `["CVE-2020-0001"]`. -/
theorem claim1_witness :
    Feed.ListFixedCVEs wpFix rpFix checkerOfTrue [cveFix]
        "cpe:/o:redhat:enterprise_linux:8" "bash-4.4-23.el8"
      = Except.ok ["CVE-2020-0001"] := by
  rw [claim1_list_filters_bucket wpFix rpFix checkerOfTrue [cveFix]
    "cpe:/o:redhat:enterprise_linux:8" "bash-4.4-23.el8"
    ⟨"cpe:/o:redhat:enterprise_linux:8"⟩ ⟨"bash", "4.4", "23.el8"⟩
    (fun _ _ _ => true) rfl rfl rfl]
  rfl

/-- C2: when the distribution string fails to parse, `ListFixedCVEs`
returns the distro `ParseError` and its result does not depend on the
checker constructor (the oracle is neither built nor invoked); when the
distribution parses but the package string fails to parse, it returns the
package `ParseError`, again independently of the checker constructor. -/
theorem claim2_parse_failure_fail_fast
    (wfnParse : WFNParser) (rpmParse : RPMParser)
    (checkerOf checkerOf' : Feed → Option Checker) (feed : Feed)
    (distro pkg : String) :
    (wfnParse distro = none →
      Feed.ListFixedCVEs wfnParse rpmParse checkerOf feed distro pkg
        = Except.error (ListError.distroParseError distro) ∧
      Feed.ListFixedCVEs wfnParse rpmParse checkerOf feed distro pkg
        = Feed.ListFixedCVEs wfnParse rpmParse checkerOf' feed distro pkg) ∧
    (∀ d : WFNAttributes, wfnParse distro = some d → rpmParse pkg = none →
      Feed.ListFixedCVEs wfnParse rpmParse checkerOf feed distro pkg
        = Except.error (ListError.pkgParseError pkg) ∧
      Feed.ListFixedCVEs wfnParse rpmParse checkerOf feed distro pkg
        = Feed.ListFixedCVEs wfnParse rpmParse checkerOf' feed distro pkg) := by
  constructor
  · intro h
    unfold Feed.ListFixedCVEs
    rw [h]
    exact ⟨rfl, rfl⟩
  · intro d hd hp
    unfold Feed.ListFixedCVEs
    rw [hd, hp]
    exact ⟨rfl, rfl⟩

/-- Witness for C2: a malformed CPE yields the distro parse error; a good
CPE with a malformed package yields the package parse error. -/
theorem claim2_witness :
    Feed.ListFixedCVEs wpFix rpFix checkerOfTrue [cveFix] "garbage"
        "bash-4.4-23.el8"
      = Except.error (ListError.distroParseError "garbage") ∧
    Feed.ListFixedCVEs wpFix rpFix checkerOfTrue [cveFix]
        "cpe:/o:redhat:enterprise_linux:8" "not-a-package"
      = Except.error (ListError.pkgParseError "not-a-package") :=
  ⟨((claim2_parse_failure_fail_fast wpFix rpFix checkerOfTrue checkerOfTrue
      [cveFix] "garbage" "bash-4.4-23.el8").1 rfl).1,
   (((claim2_parse_failure_fail_fast wpFix rpFix checkerOfTrue checkerOfTrue
      [cveFix] "cpe:/o:redhat:enterprise_linux:8" "not-a-package").2
      ⟨"cpe:/o:redhat:enterprise_linux:8"⟩ rfl rfl).1)⟩

/-- C3: when both parses and checker construction succeed but the parsed
package's base name is not a key of the built package feed,
`ListFixedCVEs` returns the empty list and no error. -/
theorem claim3_no_bucket_empty_ok
    (wfnParse : WFNParser) (rpmParse : RPMParser)
    (checkerOf : Feed → Option Checker) (feed : Feed) (distro pkg : String)
    (d : WFNAttributes) (p : RPMPackage) (check : Checker)
    (hd : wfnParse distro = some d) (hp : rpmParse pkg = some p)
    (hc : checkerOf feed = some check)
    (hk : (Feed.toPackageFeed rpmParse feed).hasKey p.Name = false) :
    Feed.ListFixedCVEs wfnParse rpmParse checkerOf feed distro pkg
      = Except.ok [] := by
  simp only [Feed.ListFixedCVEs, hd, hp, hc,
    find_eq_nil_of_hasKey_false _ _ hk, List.filter_nil, List.map_nil]

/-- Witness for C3: `zsh-5.0-1.el8` parses to base name `zsh`, which has
no bucket in the feed of the scenario; result is `ok []`. -/
theorem claim3_witness :
    (Feed.toPackageFeed rpFix [cveFix]).hasKey "zsh" = false ∧
    Feed.ListFixedCVEs wpFix rpFix checkerOfTrue [cveFix]
        "cpe:/o:redhat:enterprise_linux:8" "zsh-5.0-1.el8"
      = Except.ok [] :=
  ⟨by decide,
   claim3_no_bucket_empty_ok wpFix rpFix checkerOfTrue [cveFix]
    "cpe:/o:redhat:enterprise_linux:8" "zsh-5.0-1.el8"
    ⟨"cpe:/o:redhat:enterprise_linux:8"⟩ ⟨"zsh", "5.0", "1.el8"⟩
    (fun _ _ _ => true) rfl rfl rfl (by decide)⟩

/-- C4: an advisory's candidate names are deduplicated by exact string
equality, so the build places an advisory in a given bucket at most as
often as it occurs in the collection; in particular an advisory occurring
once whose two sources both yield the same base name appears in that
bucket exactly once. -/
theorem claim4_bucket_at_most_once
    (rpmParse : RPMParser) (feed : Feed) (k : String) (cve : CVE) :
    (cvePkgs rpmParse cve).Nodup ∧
    ((Feed.toPackageFeed rpmParse feed).find k).count cve ≤ feed.count cve ∧
    (feed.count cve = 1 → k ∈ cvePkgs rpmParse cve →
      ((Feed.toPackageFeed rpmParse feed).find k).count cve = 1) := by
  refine ⟨cvePkgs_nodup rpmParse cve, ?_, ?_⟩
  · rw [find_toPackageFeed]
    exact (List.filter_sublist feed).count_le cve
  · intro h1 hk
    rw [find_toPackageFeed]
    have hcf := List.count_filter
      (p := fun c => (cvePkgs rpmParse c).contains k) (a := cve) (l := feed)
      (List.elem_iff.mpr hk)
    rw [hcf, h1]

/-- Witness for C4: a CVE whose release-fix entry parses to `bash` and
whose package-state entry is also `bash` sits in the `bash` bucket exactly
once. -/
theorem claim4_witness :
    (cvePkgs rpFix cveBoth).Nodup ∧
    ((Feed.toPackageFeed rpFix [cveBoth]).find "bash").count cveBoth = 1 :=
  ⟨(claim4_bucket_at_most_once rpFix [cveBoth] "bash" cveBoth).1,
   (claim4_bucket_at_most_once rpFix [cveBoth] "bash" cveBoth).2.2
     (by decide) (by decide)⟩

/-- C7: the bucket of every key of the built package feed lists its CVEs
in the same relative order as the input collection: it is exactly the
order-preserving filter of the collection to the CVEs whose candidate
names contain the key, hence a sublist of the collection. -/
theorem claim7_bucket_preserves_feed_order
    (rpmParse : RPMParser) (feed : Feed) (k : String) :
    (Feed.toPackageFeed rpmParse feed).find k
      = feed.filter (fun cve => (cvePkgs rpmParse cve).contains k) ∧
    List.Sublist ((Feed.toPackageFeed rpmParse feed).find k) feed := by
  refine ⟨find_toPackageFeed rpmParse feed k, ?_⟩
  rw [find_toPackageFeed]
  exact List.filter_sublist feed

/-- C8: the build is deterministic — two builds from equal collections
agree structurally: equal association lists, hence the same bucket and the
same key membership at every name. -/
theorem claim8_build_deterministic
    (rpmParse : RPMParser) (c1 c2 : Feed) (h : c1 = c2) :
    Feed.toPackageFeed rpmParse c1 = Feed.toPackageFeed rpmParse c2 ∧
    ∀ k : String,
      (Feed.toPackageFeed rpmParse c1).find k
        = (Feed.toPackageFeed rpmParse c2).find k ∧
      (Feed.toPackageFeed rpmParse c1).hasKey k
        = (Feed.toPackageFeed rpmParse c2).hasKey k := by
  subst h
  exact ⟨rfl, fun k => ⟨rfl, rfl⟩⟩

/-- Witness for C8: two builds of the scenario collection coincide. -/
theorem claim8_witness :
    Feed.toPackageFeed rpFix [cveFix] = Feed.toPackageFeed rpFix [cveFix] ∧
    (Feed.toPackageFeed rpFix [cveFix]).find "bash"
      = (Feed.toPackageFeed rpFix [cveFix]).find "bash" :=
  ⟨(claim8_build_deterministic rpFix [cveFix] [cveFix] rfl).1,
   ((claim8_build_deterministic rpFix [cveFix] [cveFix] rfl).2 "bash").1⟩

/-- C10: dedup is scoped to one record occurrence — a CVE record occurring
`n` times in the collection and whose candidate names contain `k` is
appended to the bucket of `k` exactly `n` times, once per occurrence. -/
theorem claim10_dedup_per_occurrence
    (rpmParse : RPMParser) (feed : Feed) (cve : CVE) (k : String)
    (hk : k ∈ cvePkgs rpmParse cve) :
    ((Feed.toPackageFeed rpmParse feed).find k).count cve
      = feed.count cve := by
  rw [find_toPackageFeed]
  exact List.count_filter
    (p := fun c => (cvePkgs rpmParse c).contains k) (a := cve) (l := feed)
    (List.elem_iff.mpr hk)

/-- Witness for C10: the same CVE record at two positions of the
collection appears twice in the `bash` bucket. -/
theorem claim10_witness :
    ((Feed.toPackageFeed rpFix [cveFix, cveFix]).find "bash").count cveFix
      = 2 := by
  rw [claim10_dedup_per_occurrence rpFix [cveFix, cveFix] cveFix "bash"
    (by decide)]
  decide

/-! ### Skip lemmas for individual entries of a record -/

theorem arStep_skip (parse : RPMParser) (pkgs : List String)
    (ar0 : AffectedRelease) (h : parse ar0.Package = none) :
    arStep parse pkgs ar0 = pkgs := by
  unfold arStep
  by_cases he : ar0.Package == ""
  · simp [he]
  · simp [he, h]

theorem arStep_empty (parse : RPMParser) (pkgs : List String) :
    arStep parse pkgs ⟨""⟩ = pkgs := by
  simp [arStep]

theorem psStep_empty (pkgs : List String) : psStep pkgs ⟨""⟩ = pkgs := by
  simp [psStep]

/-- Dropping an `AffectedRelease` entry whose specifier the parser rejects
does not change a record's candidate package names. -/
theorem cvePkgs_drop_unparsable (parse : RPMParser) (n : String)
    (a1 a2 : List AffectedRelease) (pss : List PackageState)
    (ar0 : AffectedRelease) (h : parse ar0.Package = none) :
    cvePkgs parse ⟨n, a1 ++ ar0 :: a2, pss⟩
      = cvePkgs parse ⟨n, a1 ++ a2, pss⟩ := by
  show pss.foldl psStep ((a1 ++ ar0 :: a2).foldl (arStep parse) [])
    = pss.foldl psStep ((a1 ++ a2).foldl (arStep parse) [])
  rw [List.foldl_append, List.foldl_append, List.foldl_cons,
    arStep_skip parse _ ar0 h]

/-- C5: the build never fails (its result type carries no error); when a
release-fix entry's specifier fails to parse, the entry is skipped and the
built index is, bucket for bucket and key for key, the index built from
the same collection with that entry omitted. -/
theorem claim5_unparsable_entry_skipped
    (rpmParse : RPMParser) (pre post : Feed) (n : String)
    (a1 a2 : List AffectedRelease) (pss : List PackageState)
    (ar0 : AffectedRelease) (hfail : rpmParse ar0.Package = none)
    (k : String) :
    ((Feed.toPackageFeed rpmParse
        (pre ++ ⟨n, a1 ++ ar0 :: a2, pss⟩ :: post)).find k).map
        (fun c => c.Name)
      = ((Feed.toPackageFeed rpmParse
        (pre ++ ⟨n, a1 ++ a2, pss⟩ :: post)).find k).map (fun c => c.Name) ∧
    (Feed.toPackageFeed rpmParse
        (pre ++ ⟨n, a1 ++ ar0 :: a2, pss⟩ :: post)).hasKey k
      = (Feed.toPackageFeed rpmParse
        (pre ++ ⟨n, a1 ++ a2, pss⟩ :: post)).hasKey k := by
  have hpk := cvePkgs_drop_unparsable rpmParse n a1 a2 pss ar0 hfail
  constructor
  · rw [find_toPackageFeed, find_toPackageFeed]
    by_cases hm : k ∈ cvePkgs rpmParse ⟨n, a1 ++ a2, pss⟩
    · simp [List.filter_append, List.filter_cons, List.map_append, hpk, hm]
    · simp [List.filter_append, List.filter_cons, List.map_append, hpk, hm]
  · rw [hasKey_toPackageFeed, hasKey_toPackageFeed]
    simp [List.any_cons, hpk]

/-- Witness for C5: a collection whose single record carries one parsable
and one unparsable specifier builds the same `bash` bucket (by names) and
the same key membership as the collection with the bad entry removed. -/
theorem claim5_witness :
    ((Feed.toPackageFeed rpFix
        [⟨"CVE-2020-0005", [⟨"bash-4.4-20.el8"⟩, ⟨"mangled"⟩], []⟩]).find
        "bash").map (fun c => c.Name)
      = ((Feed.toPackageFeed rpFix
        [⟨"CVE-2020-0005", [⟨"bash-4.4-20.el8"⟩], []⟩]).find "bash").map
        (fun c => c.Name) ∧
    (Feed.toPackageFeed rpFix
        [⟨"CVE-2020-0005", [⟨"bash-4.4-20.el8"⟩, ⟨"mangled"⟩], []⟩]).hasKey
        "bash"
      = (Feed.toPackageFeed rpFix
        [⟨"CVE-2020-0005", [⟨"bash-4.4-20.el8"⟩], []⟩]).hasKey "bash" :=
  claim5_unparsable_entry_skipped rpFix [] [] "CVE-2020-0005"
    [⟨"bash-4.4-20.el8"⟩] [] [] ⟨"mangled"⟩ rfl "bash"

/-- C6: a record with zero candidate names lands in zero buckets, and an
empty release-fix specifier or an empty package-state name contributes no
candidate (dropping such an entry leaves the candidate list unchanged). -/
theorem claim6_zero_candidates_zero_buckets
    (rpmParse : RPMParser) (feed : Feed) (cve : CVE) (n : String)
    (a1 a2 ars : List AffectedRelease) (pss pss1 pss2 : List PackageState) :
    (cvePkgs rpmParse cve = [] →
      ∀ k : String, cve ∉ (Feed.toPackageFeed rpmParse feed).find k) ∧
    cvePkgs rpmParse ⟨n, a1 ++ ⟨""⟩ :: a2, pss⟩
      = cvePkgs rpmParse ⟨n, a1 ++ a2, pss⟩ ∧
    cvePkgs rpmParse ⟨n, ars, pss1 ++ ⟨""⟩ :: pss2⟩
      = cvePkgs rpmParse ⟨n, ars, pss1 ++ pss2⟩ := by
  refine ⟨?_, ?_, ?_⟩
  · intro h0 k hmem
    rw [find_toPackageFeed] at hmem
    have hc := (List.mem_filter.mp hmem).2
    rw [h0] at hc
    simp at hc
  · show pss.foldl psStep ((a1 ++ ⟨""⟩ :: a2).foldl (arStep rpmParse) [])
      = pss.foldl psStep ((a1 ++ a2).foldl (arStep rpmParse) [])
    rw [List.foldl_append, List.foldl_append, List.foldl_cons,
      arStep_empty]
  · show (pss1 ++ ⟨""⟩ :: pss2).foldl psStep (ars.foldl (arStep rpmParse) [])
      = (pss1 ++ pss2).foldl psStep (ars.foldl (arStep rpmParse) [])
    rw [List.foldl_append, List.foldl_append, List.foldl_cons, psStep_empty]

/-- Witness for C6: the all-empty record has no candidates and is absent
from the `bash` bucket; the spec scenario record `{packageSpec:""},
{baseName:"bash"}` has the same candidates as without the empty spec. -/
theorem claim6_witness :
    cvePkgs rpFix cveEmpty = [] ∧
    cveEmpty ∉ (Feed.toPackageFeed rpFix [cveEmpty]).find "bash" ∧
    cvePkgs rpFix ⟨"CVE-2020-0004", [⟨""⟩], [⟨"bash"⟩]⟩
      = cvePkgs rpFix ⟨"CVE-2020-0004", [], [⟨"bash"⟩]⟩ :=
  ⟨by decide,
   (claim6_zero_candidates_zero_buckets rpFix [cveEmpty] cveEmpty
      "CVE-2020-0004" [] [] [] [⟨"bash"⟩] [] []).1 (by decide) "bash",
   (claim6_zero_candidates_zero_buckets rpFix [cveEmpty] cveEmpty
      "CVE-2020-0004" [] [] [] [⟨"bash"⟩] [] []).2.1⟩

/-- C9: provided the external package parser never produces an empty base
name, every key of the built package feed is a non-empty string; its
bucket is non-empty, and the key exists only because some record of the
collection has it among its candidate names. -/
theorem claim9_keys_nonempty
    (rpmParse : RPMParser) (feed : Feed) (k : String)
    (hparse : ∀ s q, rpmParse s = some q → q.Name ≠ "")
    (hk : (Feed.toPackageFeed rpmParse feed).hasKey k = true) :
    k ≠ "" ∧ (Feed.toPackageFeed rpmParse feed).find k ≠ [] ∧
    ∃ cve ∈ feed, k ∈ cvePkgs rpmParse cve := by
  rw [hasKey_toPackageFeed] at hk
  obtain ⟨cve, hcve, hc⟩ := List.any_eq_true.mp hk
  have hmem : k ∈ cvePkgs rpmParse cve := List.elem_iff.mp hc
  refine ⟨?_, ?_, cve, hcve, hmem⟩
  · rcases mem_cvePkgs_origin rpmParse cve hmem with
      ⟨ar, _, hne, q, hq, hname⟩ | ⟨ps, _, hne, hname⟩
    · exact hname ▸ hparse _ _ hq
    · exact hname ▸ hne
  · rw [find_toPackageFeed]
    intro hnil
    have hin : cve ∈ feed.filter (fun c => (cvePkgs rpmParse c).contains k) :=
      List.mem_filter.mpr ⟨hcve, hc⟩
    rw [hnil] at hin
    simp at hin

/-- Witness for C9: with the concrete parser (which never yields an empty
name), the key `bash` of the scenario build is non-empty, its bucket is
non-empty, and it originates from the scenario record. -/
theorem claim9_witness :
    "bash" ≠ "" ∧ (Feed.toPackageFeed rpFix [cveFix]).find "bash" ≠ [] ∧
    ∃ cve ∈ [cveFix], "bash" ∈ cvePkgs rpFix cve := by
  apply claim9_keys_nonempty rpFix [cveFix] "bash"
  · intro s q h
    unfold rpFix at h
    split at h
    · cases h; decide
    · split at h
      · cases h; decide
      · split at h
        · cases h; decide
        · cases h
  · decide
